import Mathlib

/-!
Verification of the ape runtime core: address-space translation
(src/core/memory_map.rs), thread-local runtime state (src/core/state.rs),
the core load lifecycle (src/core.rs), the FFI environment callback
(src/core/callbacks/ffi.rs), and the batched JSON/TCP remote protocol
(src/ap_remote.rs).

Plugin memory is modelled as a flat byte space `Mem : Nat → Nat`; a
descriptor `ptr` is an index into that space (the Rust code stores a raw
pointer into plugin-owned memory, which we address by offset).
-/

/-- Plugin-owned memory, a flat byte space indexed by absolute position. -/
abbrev Mem := Nat → Nat

/-- Read `len` bytes starting at absolute position `ptr`
(models building a slice from a raw pointer and then copying it out). -/
def readBytes (mem : Mem) (ptr len : Nat) : List Nat :=
  (List.range len).map (fun i => mem (ptr + i))

/-- Overwrite `len` bytes starting at position `ptr` with the first `len`
entries of `bytes` (models `slice[..len].copy_from_slice(&bytes[..len])`). -/
def writeBytes (mem : Mem) (ptr : Nat) (bytes : List Nat) (len : Nat) : Mem :=
  fun q => if ptr ≤ q ∧ q < ptr + len then bytes.getD (q - ptr) 0 else mem q

/-- src/core/memory_map.rs `Descriptor`: one mapping rule from a logical
address range to a region of plugin memory. -/
structure Descriptor where
  flags : Nat
  ptr : Nat
  offset : Nat
  start : Nat
  select : Nat
  disconnect : Nat
  len : Nat
  address_space : String
deriving DecidableEq

/-- src/core/memory_map.rs `Descriptor::end`: one past the last mapped
logical address (`end` is a reserved word in Lean). -/
def Descriptor.endAddr (d : Descriptor) : Nat :=
  d.start + d.len

/-- src/core/memory_map.rs `Descriptor::contains_address`: descriptors with a
nonzero select mask never match (unimplemented case); otherwise tests
`start <= addr < end`. -/
def Descriptor.contains_address (d : Descriptor) (addr : Nat) : Bool :=
  if d.select != 0 then false
  else decide (d.start ≤ addr ∧ addr < d.endAddr)

/-- src/core/memory_map.rs `Descriptor::get_raw_slice`: translate a logical
address to (absolute pointer, length), clamping the length to the end of the
descriptor. -/
def Descriptor.get_raw_slice (d : Descriptor) (addr max_len : Nat) :
    Option (Nat × Nat) :=
  if addr < d.start ∨ d.endAddr ≤ addr then none
  else
    let offset := addr - d.start
    let len := min (d.len - offset) max_len
    let ptr := d.ptr + (d.offset + offset)
    some (ptr, len)

/-- src/core/memory_map.rs `MemoryMap`: an ordered list of descriptors. -/
structure MemoryMap where
  descriptors : List Descriptor
deriving DecidableEq

/-- src/core/memory_map.rs `MemoryMap::empty`. -/
def MemoryMap.empty : MemoryMap :=
  ⟨[]⟩

/-- src/core/memory_map.rs `MemoryMap::find_descriptor`: first descriptor, in
registration order, containing the address. -/
def MemoryMap.find_descriptor (m : MemoryMap) (addr : Nat) : Option Descriptor :=
  m.descriptors.find? (fun d => d.contains_address addr)

/-- src/core/memory_map.rs `MemoryMap::get_slice`: translate and read. -/
def MemoryMap.get_slice (m : MemoryMap) (mem : Mem) (addr max_len : Nat) :
    Option (List Nat) :=
  (m.find_descriptor addr).bind fun d =>
    (d.get_raw_slice addr max_len).map fun pl => readBytes mem pl.1 pl.2

/-- src/core/memory_map.rs `MemoryMap::get_slice_mut`: translate to the
writable target region (absolute pointer, length). -/
def MemoryMap.get_slice_mut (m : MemoryMap) (addr max_len : Nat) :
    Option (Nat × Nat) :=
  (m.find_descriptor addr).bind fun d => d.get_raw_slice addr max_len

/-- libretro_sys pixel formats negotiated via the environment callback. -/
inductive PixelFormat where
  | ARGB1555
  | XRGB8888
  | RGB565
deriving DecidableEq

/-- src/core/state.rs `State`: the thread-local runtime state. -/
structure State where
  is_core_loaded : Bool
  pixel_format : PixelFormat
  memory_map : MemoryMap
  rom : List Nat
  sha1_romhash : String
deriving DecidableEq

/-- src/core/state.rs `State::new`: the default runtime state. -/
def State.new : State :=
  { is_core_loaded := false
    pixel_format := PixelFormat.ARGB1555
    memory_map := MemoryMap.empty
    rom := []
    sha1_romhash := "" }

/-- The loaded core as observed by memory operations: the thread-local
`STATE` plus the plugin memory its descriptors point into. -/
structure Core where
  state : State
  mem : Mem

/-- src/core.rs `Core::get_memory`: translated read,
`unwrap_or_default` on a failed translation. -/
def Core.get_memory (c : Core) (address max_len : Nat) : List Nat :=
  (c.state.memory_map.get_slice c.mem address max_len).getD []

/-- src/core.rs `Core::write_memory`: translated write; the number of bytes
written is the length of the clamped target slice (0 when translation
fails, `unwrap_or_default` giving an empty slice). -/
def Core.write_memory (c : Core) (address : Nat) (bytes : List Nat) :
    Core × Nat :=
  match c.state.memory_map.get_slice_mut address bytes.length with
  | none => (c, 0)
  | some (ptr, slen) =>
    let len := min slen bytes.length
    ({ c with mem := writeBytes c.mem ptr bytes len }, len)

/-- Modelled from the spec: `Core::rom` is called by the remote protocol
(src/ap_remote.rs) but its definition is not in the sources; the spec says
the ROM domain is "a static snapshot of the loaded content file", which the
thread-local state stores in its `rom` field. -/
def Core.rom {α : Type} (c : Core) (f : List Nat → α) : α :=
  f c.state.rom

/-- Modelled from the spec: `Core::get_sha1_romhash` is called by the remote
protocol but its definition is not in the sources; the state caches the
content hash in `sha1_romhash`. -/
def Core.get_sha1_romhash (c : Core) : String :=
  c.state.sha1_romhash

/-- src/ap_remote.rs `Request`: the JSON/TCP wire requests (the `Version`
variant is serde-skipped and produced only by the plaintext VERSION line). -/
inductive Request where
  | version
  | ping
  | system
  | preferredCores
  | hash
  | guard (address : Nat) (expected_data : List Nat) (domain : String)
  | lock
  | unlock
  | read (address : Nat) (size : Nat) (domain : String)
  | write (address : Nat) (value : List Nat)
  | displayMessage (message : String)
  | setMessageInterval (value : Nat)
deriving DecidableEq

/-- src/ap_remote.rs `Response`: the JSON/TCP wire responses. -/
inductive Response where
  | version
  | pong
  | systemResponse (value : String)
  | preferredCoresResponse (value : List (String × String))
  | hashResponse (value : String)
  | guardResponse (value : Bool) (address : Nat)
  | locked
  | unlocked
  | readResponse (value : List Nat)
  | writeResponse
  | displayMessageResponse
  | setMessageIntervalResponse
  | error (err : String)
deriving DecidableEq

/-- Lowercase hex digit, used for JSON control-character escapes. -/
def hexDigit (n : Nat) : Char :=
  (("0123456789abcdef").data.getD n '0')

/-- serde_json escaping of one character inside a JSON string. -/
def escapeJsonChar (c : Char) : String :=
  if c = '"' then "\\\""
  else if c = '\\' then "\\\\"
  else if c = '\n' then "\\n"
  else if c = '\r' then "\\r"
  else if c = '\t' then "\\t"
  else if c.toNat = 8 then "\\b"
  else if c.toNat = 12 then "\\f"
  else if c.toNat < 32 then
    "\\u00" ++ String.mk [hexDigit (c.toNat / 16), hexDigit (c.toNat % 16)]
  else String.mk [c]

/-- serde_json escaping of a whole string. -/
def escapeJson (s : String) : String :=
  String.join (s.data.map escapeJsonChar)

/-- A JSON string literal. -/
def jsonString (s : String) : String :=
  "\"" ++ escapeJson s ++ "\""

/-- Rust Debug formatting of a string, as used by the
"Unknown memory domain" error messages. -/
def rustDebugStr (s : String) : String :=
  "\"" ++ escapeJson s ++ "\""

/-- The standard base64 alphabet. -/
def base64Table : List Char :=
  ("ABCDEFGHIJKLMNOPQRSTUVWXYZabcdefghijklmnopqrstuvwxyz0123456789+/").data

/-- One base64 alphabet character. -/
def b64c (n : Nat) : Char :=
  base64Table.getD n 'A'

/-- Standard base64 encoding with padding
(base64::engine::general_purpose::STANDARD, used by serialize_base64). -/
def base64Encode : List Nat → String
  | [] => ""
  | [b1] =>
    String.mk [b64c (b1 / 4), b64c (b1 % 4 * 16)] ++ "=="
  | [b1, b2] =>
    String.mk [b64c (b1 / 4), b64c (b1 % 4 * 16 + b2 / 16), b64c (b2 % 16 * 4)] ++ "="
  | b1 :: b2 :: b3 :: rest =>
    String.mk [b64c (b1 / 4), b64c (b1 % 4 * 16 + b2 / 16),
      b64c (b2 % 16 * 4 + b3 / 64), b64c (b3 % 64)] ++ base64Encode rest

/-- A JSON object with the given field text
(braces written with escapes, they are plain text). -/
def jsonObj (fields : String) : String :=
  "\x7b" ++ fields ++ "\x7d"

/-- The serde tag field emitted for every response object. -/
def typeField (t : String) : String :=
  "\"type\":" ++ jsonString t

/-- serde_json serialization of one `Response` (tag = "type",
SCREAMING_SNAKE_CASE); the serde-skipped `Version` variant cannot be
serialized and yields an error. -/
def Response.serialize : Response → Except String String
  | .version => .error ("the enum variant Response::Version cannot be serialized")
  | .pong => .ok (jsonObj (typeField ("PONG")))
  | .systemResponse v =>
    .ok (jsonObj (typeField ("SYSTEM_RESPONSE") ++ ",\"value\":" ++ jsonString v))
  | .preferredCoresResponse m =>
    .ok (jsonObj (typeField ("PREFERRED_CORES_RESPONSE") ++ ",\"value\":" ++
      jsonObj (String.intercalate (",")
        (m.map (fun kv => jsonString kv.1 ++ ":" ++ jsonString kv.2)))))
  | .hashResponse v =>
    .ok (jsonObj (typeField ("HASH_RESPONSE") ++ ",\"value\":" ++ jsonString v))
  | .guardResponse v a =>
    .ok (jsonObj (typeField ("GUARD_RESPONSE") ++ ",\"value\":" ++
      (if v then "true" else "false") ++ ",\"address\":" ++ toString a))
  | .locked => .ok (jsonObj (typeField ("LOCKED")))
  | .unlocked => .ok (jsonObj (typeField ("UNLOCKED")))
  | .readResponse v =>
    .ok (jsonObj (typeField ("READ_RESPONSE") ++ ",\"value\":" ++
      jsonString (base64Encode v)))
  | .writeResponse => .ok (jsonObj (typeField ("WRITE_RESPONSE")))
  | .displayMessageResponse => .ok (jsonObj (typeField ("DISPLAY_MESSAGE_RESPONSE")))
  | .setMessageIntervalResponse =>
    .ok (jsonObj (typeField ("SET_MESSAGE_INTERVAL_RESPONSE")))
  | .error e => .ok (jsonObj (typeField ("ERROR") ++ ",\"err\":" ++ jsonString e))

/-- serde_json serialization of a `Vec<Response>`: a JSON array. -/
def serializeResponses (rs : List Response) : Except String String := do
  let parts ← rs.mapM Response.serialize
  return "[" ++ String.intercalate (",") parts ++ "]"

/-- src/ap_remote.rs `handle_request`: translate one request into one
response, executing its effect on the core. -/
def handle_request (req : Request) (core : Core) : Core × Response :=
  match req with
  | .version => (core, .version)
  | .ping => (core, .pong)
  | .system => (core, .systemResponse ("GBA"))
  | .preferredCores => (core, .error ("TODO: unimplemented command: PreferredCores"))
  | .hash => (core, .hashResponse core.get_sha1_romhash)
  | .guard address expected_data domain =>
    if domain = "ROM" then
      (core, core.rom (fun rom =>
        let start := min address rom.length
        let stop := min (address + expected_data.length) rom.length
        let data := (rom.take stop).drop start
        Response.guardResponse (data == expected_data) address))
    else if domain = "System Bus" then
      let max_len := expected_data.length
      let data := core.get_memory address max_len
      (core, .guardResponse (data == expected_data) address)
    else (core, .error ("Unknown memory domain: " ++ rustDebugStr domain))
  | .lock => (core, .error ("TODO: unimplemented command: Lock"))
  | .unlock => (core, .error ("TODO: unimplemented command: Unlock"))
  | .read address size domain =>
    if domain = "ROM" then
      (core, core.rom (fun rom =>
        let start := min address rom.length
        let stop := min (address + size) rom.length
        Response.readResponse ((rom.take stop).drop start)))
    else if domain = "System Bus" then
      (core, .readResponse (core.get_memory address size))
    else (core, .error ("Unknown memory domain: " ++ rustDebugStr domain))
  | .write address value =>
    let cw := core.write_memory address value
    (cw.1, .writeResponse)
  | .displayMessage _ => (core, .error ("TODO: unimplemented command: DisplayMessage"))
  | .setMessageInterval _ => (core, .error ("TODO: unimplemented command: SetMessageInterval"))

/-- The per-batch state of src/ap_remote.rs `handle_requests`: the lock flag
and the held guard response. -/
structure BatchSt where
  is_locked : Bool
  failed_guard : Option Response
deriving DecidableEq

/-- The `match response` dispatch inside the `handle_requests` loop body:
Locked/Unlocked toggle the lock flag and are appended; a guard response is
held (replacing any previous one) instead of being appended; every other
response is appended. -/
def dispatchResponse (st : BatchSt) (responses : List Response)
    (response : Response) : BatchSt × List Response :=
  match response with
  | .locked => ({ st with is_locked := true }, responses ++ [Response.locked])
  | .unlocked => ({ st with is_locked := false }, responses ++ [Response.unlocked])
  | .guardResponse v a =>
    ({ st with failed_guard := some (Response.guardResponse v a) }, responses)
  | r => (st, responses ++ [r])

/-- One iteration of the `for request in requests` loop of
`handle_requests`: first push the held guard response (if any), then handle
the request, then dispatch on its response. -/
def handleOneRequest (core : Core) (st : BatchSt) (responses : List Response)
    (req : Request) : Core × BatchSt × List Response :=
  let responses :=
    match st.failed_guard with
    | some fg => responses ++ [fg]
    | none => responses
  let cr := handle_request req core
  let sr := dispatchResponse st responses cr.2
  (cr.1, sr.1, sr.2)

/-- The whole `for request in requests` loop of `handle_requests` over one
request line, starting from an empty response buffer. -/
def processBatch (core : Core) (st : BatchSt) (requests : List Request) :
    Core × BatchSt × List Response :=
  requests.foldl (fun acc req => handleOneRequest acc.1 acc.2.1 acc.2.2 req)
    (core, st, [])

/-- src/ap_remote.rs `const VERSION: u8 = 1`. -/
def VERSION : Nat := 1

/-- src/ap_remote.rs `const FIRST_PORT: u16 = 43055`. -/
def FIRST_PORT : Nat := 43055

/-- Rust `char::is_whitespace` (the Unicode White_Space property), used by
`str::trim`. -/
def isRustWhitespace (c : Char) : Bool :=
  let n := c.toNat
  decide ((0x09 ≤ n ∧ n ≤ 0x0D) ∨ n = 0x20 ∨ n = 0x85 ∨ n = 0xA0 ∨
    n = 0x1680 ∨ (0x2000 ≤ n ∧ n ≤ 0x200A) ∨ n = 0x2028 ∨ n = 0x2029 ∨
    n = 0x202F ∨ n = 0x205F ∨ n = 0x3000)

/-- Rust `str::trim`: drop leading and trailing whitespace. -/
def rustTrim (s : String) : String :=
  String.mk (((s.data.dropWhile isRustWhitespace).reverse.dropWhile
    isRustWhitespace).reverse)

/-- Rust `char::to_ascii_lowercase`. -/
def asciiLower (c : Char) : Char :=
  if 'A' ≤ c ∧ c ≤ 'Z' then Char.ofNat (c.toNat + 32) else c

/-- Rust `str::eq_ignore_ascii_case`. -/
def eqIgnoreAsciiCase (a b : String) : Bool :=
  a.data.map asciiLower == b.data.map asciiLower

/-- src/ap_remote.rs `parse_requests`: a line whose trimmed text equals
VERSION case-insensitively becomes the singleton `[Request::Version]`; every
other line goes through the serde_json `Vec<Request>` decoder (taken as a
parameter, since the JSON grammar itself is a library concern). -/
def parse_requests (jsonDecode : String → Except String (List Request))
    (line : String) : Except String (List Request) :=
  if eqIgnoreAsciiCase (rustTrim line) ("VERSION") then .ok [Request.version]
  else jsonDecode line

/-- One message written back to the TCP stream: either the bare plaintext
version line or a newline-terminated JSON text. -/
inductive WireMsg where
  | plaintext (s : String)
  | jsonLine (s : String)
deriving DecidableEq

/-- src/ap_remote.rs `send_responses`: a batch whose first response is
`Version` is answered with the bare plaintext version line; any other batch
is serialized as a JSON array followed by a newline. -/
def send_responses (responses : List Response) : Except String WireMsg :=
  match responses.head? with
  | some Response.version => .ok (.plaintext (toString VERSION ++ "\n"))
  | _ => (serializeResponses responses).map (fun s => WireMsg.jsonLine (s ++ "\n"))

/-- src/ap_remote.rs `handle_requests`: the outer `loop`. Processes the
current request line; if the batch left the connection unlocked the
responses are returned (and the remaining input lines are untouched);
otherwise the responses gathered so far are sent and one more line is
received, parsed and processed with the lock flag and held guard carried
over. Returns (core, messages sent inside the loop, final responses if the
client did not disconnect, remaining input lines). -/
def handleRequestsLoop (jsonDecode : String → Except String (List Request)) :
    Core → BatchSt → List Request → List String →
    Except String (Core × List WireMsg × Option (List Response) × List String)
  | core, st, requests, [] =>
    let pb := processBatch core st requests
    if pb.2.1.is_locked = false then
      .ok (pb.1, [], some pb.2.2, [])
    else
      match send_responses pb.2.2 with
      | .error e => .error e
      | .ok w => .ok (pb.1, [w], none, [])
  | core, st, requests, line :: rest =>
    let pb := processBatch core st requests
    if pb.2.1.is_locked = false then
      .ok (pb.1, [], some pb.2.2, line :: rest)
    else
      match send_responses pb.2.2 with
      | .error e => .error e
      | .ok w =>
        match parse_requests jsonDecode line with
        | .error e => .error e
        | .ok reqs2 =>
          match handleRequestsLoop jsonDecode pb.1 pb.2.1 reqs2 rest with
          | .error e => .error e
          | .ok r => .ok (r.1, w :: r.2.1, r.2.2.1, r.2.2.2)

/-- src/ap_remote.rs `handle_requests`: entry point; the lock flag starts
false and no guard response is held. -/
def handle_requests (jsonDecode : String → Except String (List Request))
    (core : Core) (requests : List Request) (lines : List String) :
    Except String (Core × List WireMsg × Option (List Response) × List String) :=
  handleRequestsLoop jsonDecode core ⟨false, none⟩ requests lines

/-- The loop of `handle_requests` never grows the input: the remaining lines
after a successful return are a suffix of the lines it was given. -/
theorem handleRequestsLoop_rem_le
    (jsonDecode : String → Except String (List Request)) :
    ∀ (lines : List String) (core : Core) (st : BatchSt)
      (requests : List Request) r,
      handleRequestsLoop jsonDecode core st requests lines = .ok r →
      r.2.2.2.length ≤ lines.length := by
  intro lines
  induction lines with
  | nil =>
    intro core st requests r h
    simp only [handleRequestsLoop] at h
    split at h
    · cases h
      simp
    · split at h
      · cases h
      · cases h
        simp
  | cons line rest ih =>
    intro core st requests r h
    simp only [handleRequestsLoop] at h
    split at h
    · cases h
      simp
    · split at h
      · cases h
      · split at h
        · cases h
        · split at h
          · cases h
          · cases h
            have := ih _ _ _ _ (by assumption)
            simp only [List.length_cons]
            omega

/-- How a connection ends: clean client disconnect (EOF) or an error that
tears the connection down. -/
inductive ConnEnd where
  | disconnected
  | errored (e : String)
deriving DecidableEq

/-- src/ap_remote.rs `try_handle_client`: the per-connection loop. Each
iteration receives one line, parses it, runs `handle_requests` (which may
itself consume more lines while locked) and sends the resulting responses;
EOF ends the connection cleanly. Returns the wire messages sent, in order,
and how the connection ended. -/
def tryHandleClient (jsonDecode : String → Except String (List Request)) :
    Core → List String → List WireMsg × ConnEnd
  | _, [] => ([], .disconnected)
  | core, line :: rest =>
    match parse_requests jsonDecode line with
    | .error e => ([], .errored e)
    | .ok reqs =>
      match h : handleRequestsLoop jsonDecode core ⟨false, none⟩ reqs rest with
      | .error e => ([], .errored e)
      | .ok r =>
        match r.2.2.1 with
        | none => (r.2.1, .disconnected)
        | some responses =>
          match send_responses responses with
          | .error e => (r.2.1, .errored e)
          | .ok w =>
            let next := tryHandleClient jsonDecode r.1 r.2.2.2
            (r.2.1 ++ w :: next.1, next.2)
termination_by c lines => lines.length
decreasing_by
  simp_wf
  have h1 := handleRequestsLoop_rem_le jsonDecode rest core ⟨false, none⟩ reqs r h
  have h2 : (line :: rest).length = rest.length + 1 := rfl
  omega

/-- The environment commands as distinguished by
src/core/callbacks/ffi.rs `environment`: an unknown numeric command
(`Command::from_repr` fails), `SET_PIXEL_FORMAT` (whose data is either a
recognized pixel format or not), `GET_CAN_DUPE` (with a possibly null data
pointer), or any other known command (all fall into the `_` arm). -/
inductive EnvCommand where
  | unknownRepr
  | setPixelFormat (pf : Option PixelFormat)
  | getCanDupe (dataIsNull : Bool)
  | otherKnown
deriving DecidableEq

/-- src/core/callbacks/ffi.rs `environment`: returns the bool handed back to
the plugin and the (possibly updated) thread-local state. Only a supported
`SET_PIXEL_FORMAT` mutates the state; every command other than
`SET_PIXEL_FORMAT` and `GET_CAN_DUPE` returns false and leaves the state
unchanged. `supports` models the registered callback handler. -/
def environment (supports : PixelFormat → Bool) (cmd : EnvCommand)
    (s : State) : Bool × State :=
  match cmd with
  | .unknownRepr => (false, s)
  | .setPixelFormat none => (false, s)
  | .setPixelFormat (some pf) =>
    let supported := supports pf
    if supported then (true, { s with pixel_format := pf }) else (false, s)
  | .getCanDupe _ => (true, s)
  | .otherKnown => (false, s)

/-- One mutation of the thread-local `STATE` as it occurs in the sources:
either an environment callback (ffi.rs line 68 is the only field update) or
the `STATE.set(State::new())` reset at the end of `Core::load`. -/
inductive StateStep : State → State → Prop where
  | env (supports : PixelFormat → Bool) (cmd : EnvCommand) (s : State) :
      StateStep s (environment supports cmd s).2
  | reset (s : State) : StateStep s State.new

/-- The states the thread-local `STATE` can reach from its initializer. -/
inductive ReachableState : State → Prop where
  | init : ReachableState State.new
  | step {s s2 : State} : ReachableState s → StateStep s s2 → ReachableState s2

/-- src/core/callbacks.rs: whether the thread-local `CALLBACKS` slot holds a
registered handler or the warning `Stub`. -/
inductive CallbackSlot where
  | registered
  | stub
deriving DecidableEq

/-- The two thread-locals touched by `Core::load`: the `CALLBACKS` slot and
the `STATE` cell. -/
structure ThreadLocals where
  callbacks : CallbackSlot
  state : State
deriving DecidableEq

/-- Thread-local values on a fresh thread: a `Stub` handler and
`State::new()`. -/
def ThreadLocals.init : ThreadLocals :=
  { callbacks := CallbackSlot.stub, state := State.new }

/-- The plugin entry points `Core::load` can invoke, in call order. -/
inductive FfiCall where
  | retroApiVersion
  | setEnvironment
  | setVideoRefresh
  | setAudioSample
  | setAudioSampleBatch
  | setInputPoll
  | setInputState
  | retroInit
  | retroLoadGame
  | retroUnloadGame
  | retroDeinit
deriving DecidableEq

/-- What the dynamically loaded plugin does at each lifecycle entry point,
determining which path `Core::load` takes. -/
structure ApiBehavior where
  loadOk : Bool
  apiVersion : Nat
  loadGameOk : Bool
deriving DecidableEq

/-- src/core.rs `const EXPECTED_LIB_RETRO_VERSION: u32 = 1`. -/
def EXPECTED_LIB_RETRO_VERSION : Nat := 1

/-- How `Core::load` returns: normally, with an error, or by unwinding a
panic raised in the caller-supplied body function. -/
inductive LoadOutcome (R : Type) where
  | ok (r : R)
  | error (msg : String)
  | panicked

/-- The FFI calls made before `retro_load_game`: the version probe, the six
callback setters of `register_callbacks`, and `retro_init`. -/
def loadPrelude : List FfiCall :=
  [FfiCall.retroApiVersion, FfiCall.setEnvironment, FfiCall.setVideoRefresh,
    FfiCall.setAudioSample, FfiCall.setAudioSampleBatch, FfiCall.setInputPoll,
    FfiCall.setInputState, FfiCall.retroInit]

/-- src/core.rs `Core::load`: guard on `is_core_loaded`, load the library,
check the ABI version, register callbacks, `retro_init`, load the game
(running `retro_deinit` and returning the error if that fails), run the
caller-supplied body (whose result `none` models a panic unwinding through
`load`, which has no catch or drop guard), then unload, deinit, drop the
callbacks back to the stub and reset the thread-local state. Returns the
outcome, the final thread-locals, and the plugin entry points invoked. -/
def Core.load {R : Type} (api : ApiBehavior)
    (body : ThreadLocals → ThreadLocals × Option R) (tl : ThreadLocals) :
    LoadOutcome R × ThreadLocals × List FfiCall :=
  if tl.state.is_core_loaded then
    (.error ("only one core per thread allowed"), tl, [])
  else if api.loadOk = false then
    (.error ("failed to load core library"), tl, [])
  else if api.apiVersion ≠ EXPECTED_LIB_RETRO_VERSION then
    (.error ("core was compiled against an unexpected libretro version"), tl,
      [FfiCall.retroApiVersion])
  else
    let tl1 : ThreadLocals := { tl with callbacks := CallbackSlot.registered }
    if api.loadGameOk = false then
      (.error ("failed to load game"), tl1,
        loadPrelude ++ [FfiCall.retroLoadGame, FfiCall.retroDeinit])
    else
      match body tl1 with
      | (tl2, none) =>
        (.panicked, tl2, loadPrelude ++ [FfiCall.retroLoadGame])
      | (_, some r) =>
        (.ok r, { callbacks := CallbackSlot.stub, state := State.new },
          loadPrelude ++ [FfiCall.retroLoadGame, FfiCall.retroUnloadGame,
            FfiCall.retroDeinit])

/-- An anyhow error value: either a bare message or an error wrapped with a
context value (itself an error). -/
inductive AnyError where
  | msg (s : String)
  | ctx (c : AnyError) (cause : AnyError)
deriving DecidableEq

/-- Whether a message occurs anywhere in an anyhow error chain (as printed
by its Debug format). -/
def AnyError.containsMsg : AnyError → String → Bool
  | .msg s, t => s == t
  | .ctx c cause, t => c.containsMsg t || cause.containsMsg t

/-- The error produced when binding one port fails:
`failed to listen on port N` wrapping the io error. -/
def portBindError (port : Nat) (ioMsg : String) : AnyError :=
  .ctx (.msg ("failed to listen on port " ++ toString port)) (.msg ioMsg)

/-- The `for port in port_range` loop of src/ap_remote.rs `bind_socket`:
return the first port that binds; otherwise chain each failure onto the
accumulated errors. `bindResult` gives the OS outcome per port (`none` =
bound, `some ioMsg` = failure). -/
def bindLoop (bindResult : Nat → Option String) :
    List Nat → Option AnyError → Except AnyError Nat
  | [], none => .error (.msg ("empty range of ports"))
  | [], some errs => .error (.ctx (.msg ("no port found to listen on")) errs)
  | p :: rest, acc =>
    match bindResult p with
    | none => .ok p
    | some io =>
      let err := portBindError p io
      let acc2 : Option AnyError :=
        match acc with
        | some errs => some (.ctx errs err)
        | none => some err
      bindLoop bindResult rest acc2

/-- src/ap_remote.rs `bind_socket`: try the 5 candidate ports starting at
`FIRST_PORT` in order. -/
def bind_socket (bindResult : Nat → Option String) : Except AnyError Nat :=
  bindLoop bindResult (List.range' FIRST_PORT 5) none

/-- A core with a single System Bus descriptor covering logical addresses
0x0-0x1f, backed by all-zero plugin memory. -/
def smallBusCore : Core :=
  ⟨⟨false, PixelFormat.ARGB1555, ⟨[⟨0, 0, 0, 0, 0, 0, 0x20, "System Bus"⟩]⟩,
    [], ""⟩, fun _ => 0⟩

/-- The guard-then-write batch of the spec scenario:
GUARD(addr=0x10, expected=[0x05], domain="System Bus") then
WRITE(addr=0x10, value=[0x06]). -/
def guardWriteBatch : List Request :=
  [Request.guard 0x10 [0x05] ("System Bus"), Request.write 0x10 [0x06]]

/-- A core with no descriptors and empty ROM (the default state). -/
def emptyCore : Core :=
  ⟨State.new, fun _ => 0⟩

/-- A JSON decoder stub that always fails; the scenarios below never reach
it. -/
def jdFail : String → Except String (List Request) :=
  fun _ => Except.error ("unused")

/-- Decompose a successful `List.find?`: the found element splits the list
and everything before it fails the predicate. -/
theorem find?_split {α : Type} (p : α → Bool) :
    ∀ (l : List α) (d : α), l.find? p = some d →
      ∃ pre post, l = pre ++ d :: post ∧ ∀ e ∈ pre, p e = false := by
  intro l
  induction l with
  | nil => intro d h; simp [List.find?] at h
  | cons x xs ih =>
    intro d h
    by_cases hx : p x
    · rw [List.find?_cons_of_pos _ hx] at h
      cases h
      exact ⟨[], xs, rfl, by simp⟩
    · rw [List.find?_cons_of_neg _ (by simpa using hx)] at h
      obtain ⟨pre, post, hsplit, hpre⟩ := ih d h
      refine ⟨x :: pre, post, by simp [hsplit], ?_⟩
      intro e he
      rcases List.mem_cons.mp he with rfl | he2
      · simpa using hx
      · exact hpre e he2

/-- `contains_address` unfolded into its arithmetic meaning. -/
theorem contains_address_iff (d : Descriptor) (a : Nat) :
    d.contains_address a = true ↔
      d.select = 0 ∧ d.start ≤ a ∧ a < d.start + d.len := by
  unfold Descriptor.contains_address Descriptor.endAddr
  by_cases hs : d.select = 0 <;> simp [hs]

/-- A contained address always translates, to the documented pointer and
clamped length. -/
theorem get_raw_slice_of_contains (d : Descriptor) (a n : Nat)
    (h1 : d.start ≤ a) (h2 : a < d.start + d.len) :
    d.get_raw_slice a n =
      some (d.ptr + (d.offset + (a - d.start)), min (d.len - (a - d.start)) n) := by
  unfold Descriptor.get_raw_slice Descriptor.endAddr
  rw [if_neg]
  omega

/-- An address contained in no descriptor finds no descriptor. -/
theorem find_descriptor_none (m : MemoryMap) (a : Nat)
    (h : ∀ d ∈ m.descriptors, d.contains_address a = false) :
    m.find_descriptor a = none := by
  unfold MemoryMap.find_descriptor
  exact List.find?_eq_none.mpr (by simpa using h)

/-- `readBytes` returns exactly the requested number of bytes. -/
theorem readBytes_length (mem : Mem) (ptr len : Nat) :
    (readBytes mem ptr len).length = len := by
  simp [readBytes]

/-- The descriptor returned by `find_descriptor` contains the address. -/
theorem find_descriptor_contains (m : MemoryMap) (a : Nat) (d : Descriptor)
    (h : m.find_descriptor a = some d) : d.contains_address a = true := by
  unfold MemoryMap.find_descriptor at h
  simpa using List.find?_some h

/-- Length of a translated read: the descriptor length past the address,
clamped by the requested length. -/
theorem get_memory_length (s : State) (mem : Mem) (a L : Nat) (d : Descriptor)
    (h : s.memory_map.find_descriptor a = some d) :
    (Core.get_memory ⟨s, mem⟩ a L).length = min (d.len - (a - d.start)) L := by
  have hc := find_descriptor_contains _ _ _ h
  obtain ⟨-, h1, h2⟩ := (contains_address_iff d a).mp hc
  simp only [Core.get_memory, MemoryMap.get_slice]
  rw [h]
  simp [get_raw_slice_of_contains d a L h1 h2, readBytes_length]

/-- A translated write: the returned count is the clamped length, exactly
those bytes are written at the translated location, and nothing outside the
written region changes. -/
theorem write_memory_spec (s : State) (mem : Mem) (a : Nat) (bytes : List Nat)
    (d : Descriptor) (h : s.memory_map.find_descriptor a = some d) :
    (Core.write_memory ⟨s, mem⟩ a bytes).2 =
        min (d.len - (a - d.start)) bytes.length
      ∧ (∀ i, i < min (d.len - (a - d.start)) bytes.length →
          (Core.write_memory ⟨s, mem⟩ a bytes).1.mem
              (d.ptr + (d.offset + (a - d.start)) + i) = bytes.getD i 0)
      ∧ (∀ q, q < d.ptr + (d.offset + (a - d.start)) ∨
            d.ptr + (d.offset + (a - d.start)) +
              min (d.len - (a - d.start)) bytes.length ≤ q →
          (Core.write_memory ⟨s, mem⟩ a bytes).1.mem q = mem q) := by
  have hc := find_descriptor_contains _ _ _ h
  obtain ⟨-, h1, h2⟩ := (contains_address_iff d a).mp hc
  have hraw := get_raw_slice_of_contains d a bytes.length h1 h2
  have hmut : (⟨s, mem⟩ : Core).state.memory_map.get_slice_mut a bytes.length =
      some (d.ptr + (d.offset + (a - d.start)),
        min (d.len - (a - d.start)) bytes.length) := by
    simp only [MemoryMap.get_slice_mut]
    rw [h]
    simp [hraw]
  simp only [Core.write_memory, hmut]
  refine ⟨by simp [Nat.min_assoc], ?_, ?_⟩
  · intro i hi
    simp only [writeBytes]
    rw [if_pos (by constructor <;> omega)]
    congr 1
    omega
  · intro q hq
    simp only [writeBytes]
    rw [if_neg (by omega)]

/-- When no descriptor matches, reads come back empty and writes write
nothing. -/
theorem memory_no_descriptor (s : State) (mem : Mem) (a L : Nat)
    (bytes : List Nat) (h : s.memory_map.find_descriptor a = none) :
    Core.get_memory ⟨s, mem⟩ a L = []
      ∧ (Core.write_memory ⟨s, mem⟩ a bytes).2 = 0
      ∧ (Core.write_memory ⟨s, mem⟩ a bytes).1.mem = mem := by
  refine ⟨?_, ?_, ?_⟩ <;>
    simp [Core.get_memory, Core.write_memory, MemoryMap.get_slice,
      MemoryMap.get_slice_mut, h]

/-- `handle_request` never produces the Locked or Unlocked responses (the
Lock and Unlock requests answer with Error), and produces the Version
response only for a Version request. -/
theorem handle_request_shape (req : Request) (c : Core) :
    (handle_request req c).2 ≠ Response.locked
      ∧ (handle_request req c).2 ≠ Response.unlocked
      ∧ (req ≠ Request.version → (handle_request req c).2 ≠ Response.version) := by
  cases req <;> simp [handle_request, Core.rom] <;> split_ifs <;> simp

/-- Dispatching any response other than Locked keeps an unlocked batch
unlocked. -/
theorem dispatchResponse_not_locked (st : BatchSt) (acc : List Response)
    (r : Response) (hr : r ≠ Response.locked) (hst : st.is_locked = false) :
    (dispatchResponse st acc r).1.is_locked = false := by
  cases r <;> simp_all [dispatchResponse]

/-- The batch loop can never set the lock flag, because `handle_request`
never returns a Locked response. -/
theorem processBatch_not_locked :
    ∀ (reqs : List Request) (c : Core) (st : BatchSt) (acc : List Response),
      st.is_locked = false →
      (List.foldl (fun acc2 req => handleOneRequest acc2.1 acc2.2.1 acc2.2.2 req)
        (c, st, acc) reqs).2.1.is_locked = false := by
  intro reqs
  induction reqs with
  | nil => intro c st acc h; simpa using h
  | cons req rest ih =>
    intro c st acc h
    simp only [List.foldl_cons]
    apply ih
    exact dispatchResponse_not_locked _ _ _
      (handle_request_shape req _).1 h

/-- `processBatch` leaves an unlocked connection unlocked. -/
theorem processBatch_is_locked_false (c : Core) (st : BatchSt)
    (reqs : List Request) (h : st.is_locked = false) :
    (processBatch c st reqs).2.1.is_locked = false :=
  processBatch_not_locked reqs c st [] h

/-- Dispatching preserves version-freeness of the response buffer and of
the held guard. -/
theorem dispatchResponse_no_version (st : BatchSt) (acc : List Response)
    (r : Response) (hr : r ≠ Response.version)
    (hacc : ∀ x ∈ acc, x ≠ Response.version) :
    (∀ x ∈ (dispatchResponse st acc r).2, x ≠ Response.version)
      ∧ (∀ g, (dispatchResponse st acc r).1.failed_guard = some g →
          st.failed_guard = some g ∨ ∃ v a, g = Response.guardResponse v a) := by
  cases r <;> simp_all [dispatchResponse] <;> intro x hx <;>
    rcases hx with hx | hx <;> simp_all

/-- A batch containing no Version request produces no Version response
(assuming the held guard, if any, is not a Version response). -/
theorem processBatch_no_version :
    ∀ (reqs : List Request) (c : Core) (st : BatchSt) (acc : List Response),
      Request.version ∉ reqs →
      (∀ x ∈ acc, x ≠ Response.version) →
      (∀ g, st.failed_guard = some g → g ≠ Response.version) →
      ∀ x ∈ (List.foldl (fun acc2 req => handleOneRequest acc2.1 acc2.2.1 acc2.2.2 req)
        (c, st, acc) reqs).2.2, x ≠ Response.version := by
  intro reqs
  induction reqs with
  | nil => intro c st acc _ hacc _; simpa using hacc
  | cons req rest ih =>
    intro c st acc hreq hacc hg
    have hreq1 : req ≠ Request.version := by
      intro hx; exact hreq (by simp [hx])
    have hreq2 : Request.version ∉ rest := by
      intro hx; exact hreq (by simp [hx])
    simp only [List.foldl_cons]
    have hstep := dispatchResponse_no_version st
      (match st.failed_guard with
        | some fg => acc ++ [fg]
        | none => acc)
      ((handle_request req c).2)
      ((handle_request_shape req c).2.2 hreq1)
      (by
        cases hfg : st.failed_guard with
        | none => simpa using hacc
        | some fg =>
          simp only [hfg]
          intro x hx
          rcases List.mem_append.mp hx with hx | hx
          · exact hacc x hx
          · simp only [List.mem_singleton] at hx
            subst hx
            exact hg _ hfg)
    apply ih _ _ _ hreq2
    · exact fun x hx => hstep.1 x (by simpa [handleOneRequest] using hx)
    · intro g hgd
      rcases hstep.2 g (by simpa [handleOneRequest] using hgd) with hold | ⟨v, a, rfl⟩
      · exact hg _ hold
      · simp

/-- Every response except the serde-skipped Version variant serializes. -/
theorem serialize_ok (r : Response) (h : r ≠ Response.version) :
    ∃ t, Response.serialize r = .ok t := by
  cases r <;> simp_all [Response.serialize]

/-- A version-free response list serializes to a JSON array. -/
theorem serializeResponses_ok (rs : List Response)
    (h : ∀ r ∈ rs, r ≠ Response.version) :
    ∃ s, serializeResponses rs = .ok ("[" ++ s ++ "]") := by
  have hparts : ∃ parts, rs.mapM Response.serialize = Except.ok parts := by
    induction rs with
    | nil => exact ⟨[], rfl⟩
    | cons r rest ih =>
      obtain ⟨t, ht⟩ := serialize_ok r (h r (by simp))
      obtain ⟨parts, hp⟩ := ih (fun x hx => h x (by simp [hx]))
      refine ⟨t :: parts, ?_⟩
      rw [List.mapM_cons, ht, hp]
      rfl
  obtain ⟨parts, hp⟩ := hparts
  refine ⟨String.intercalate (",") parts, ?_⟩
  rw [serializeResponses, hp]
  rfl

/-- Sending a version-free batch produces a newline-terminated JSON array
line. -/
theorem send_responses_json (rs : List Response)
    (h : ∀ r ∈ rs, r ≠ Response.version) :
    ∃ s, send_responses rs = .ok (WireMsg.jsonLine ("[" ++ s ++ "]" ++ "\n")) := by
  obtain ⟨s, hs⟩ := serializeResponses_ok rs h
  refine ⟨s, ?_⟩
  unfold send_responses
  cases rs with
  | nil => simp [hs, Except.map]
  | cons r rest =>
    have hr : r ≠ Response.version := h r (by simp)
    cases r <;> simp_all [hs, Except.map]

/-- Sending a batch whose first response is Version produces the bare
plaintext version line. -/
theorem send_responses_version (rs : List Response)
    (h : rs.head? = some Response.version) :
    send_responses rs = .ok (WireMsg.plaintext (toString VERSION ++ "\n")) := by
  unfold send_responses
  rw [h]

/-- When the batch leaves the connection unlocked, `handle_requests`
finishes the line: nothing extra is sent, the batch responses are the final
result, and the remaining input lines are untouched. -/
theorem handleRequestsLoop_unlocked
    (jsonDecode : String → Except String (List Request)) (core : Core)
    (st : BatchSt) (reqs : List Request) (lines : List String)
    (h : (processBatch core st reqs).2.1.is_locked = false) :
    handleRequestsLoop jsonDecode core st reqs lines =
      .ok ((processBatch core st reqs).1, [], some (processBatch core st reqs).2.2,
        lines) := by
  cases lines <;> simp [handleRequestsLoop, h]

/-- The environment callback never modifies the memory map. -/
theorem environment_memory_map (supports : PixelFormat → Bool)
    (cmd : EnvCommand) (s : State) :
    (environment supports cmd s).2.memory_map = s.memory_map := by
  cases cmd with
  | setPixelFormat pf =>
    cases pf <;> simp [environment] <;> split <;> rfl
  | _ => rfl

/-- In every reachable thread-local state the memory map is empty. -/
theorem reachable_memory_map_empty (s : State) (h : ReachableState s) :
    s.memory_map = MemoryMap.empty := by
  induction h with
  | init => rfl
  | step _ hs ih =>
    cases hs with
    | env supports cmd s => rw [environment_memory_map]; exact ih
    | reset => rfl

/-- With an empty memory map every read is empty and every write writes
nothing. -/
theorem memory_ops_empty_map (s : State) (mem : Mem)
    (h : s.memory_map = MemoryMap.empty) :
    (∀ a L, Core.get_memory ⟨s, mem⟩ a L = [])
      ∧ (∀ a bytes, (Core.write_memory ⟨s, mem⟩ a bytes).2 = 0
          ∧ (Core.write_memory ⟨s, mem⟩ a bytes).1.mem = mem) := by
  have hfind : ∀ a, s.memory_map.find_descriptor a = none := by
    intro a
    simp [MemoryMap.find_descriptor, h, MemoryMap.empty]
  constructor
  · intro a L
    exact (memory_no_descriptor s mem a L [] (hfind a)).1
  · intro a bytes
    exact ⟨(memory_no_descriptor s mem a 0 bytes (hfind a)).2.1,
      (memory_no_descriptor s mem a 0 bytes (hfind a)).2.2⟩

/-- If every port before `p` fails to bind and `p` binds, the loop returns
`p`. -/
theorem bindLoop_first_free (br : Nat → Option String) :
    ∀ (pre : List Nat) (acc : Option AnyError) (p : Nat) (post : List Nat),
      (∀ q ∈ pre, br q ≠ none) → br p = none →
      bindLoop br (pre ++ p :: post) acc = .ok p := by
  intro pre
  induction pre with
  | nil =>
    intro acc p post _ hp
    simp [bindLoop, hp]
  | cons q pre ih =>
    intro acc p post hpre hp
    have hq : br q ≠ none := hpre q (by simp)
    obtain ⟨io, hio⟩ := Option.ne_none_iff_exists'.mp hq
    simp only [List.cons_append, bindLoop, hio]
    exact ih _ p post (fun x hx => hpre x (by simp [hx])) hp

/-- If every port fails to bind, the loop ends with the aggregate error:
it keeps everything already accumulated and adds one failure per port. -/
theorem bindLoop_all_fail (br : Nat → Option String) :
    ∀ (ports : List Nat) (acc : AnyError),
      (∀ q ∈ ports, br q ≠ none) →
      ∃ e, bindLoop br ports (some acc) =
          .error (.ctx (.msg ("no port found to listen on")) e)
        ∧ (∀ t, acc.containsMsg t = true → e.containsMsg t = true)
        ∧ (∀ q ∈ ports,
            e.containsMsg ("failed to listen on port " ++ toString q) = true) := by
  intro ports
  induction ports with
  | nil =>
    intro acc _
    exact ⟨acc, rfl, fun t ht => ht, by simp⟩
  | cons p rest ih =>
    intro acc hall
    obtain ⟨io, hio⟩ := Option.ne_none_iff_exists'.mp (hall p (by simp))
    obtain ⟨e, he, hacc, hports⟩ :=
      ih (.ctx acc (portBindError p io)) (fun q hq => hall q (by simp [hq]))
    refine ⟨e, ?_, ?_, ?_⟩
    · simp only [bindLoop, hio]
      exact he
    · intro t ht
      exact hacc t (by simp [AnyError.containsMsg, ht])
    · intro q hq
      rcases List.mem_cons.mp hq with rfl | hq2
      · apply hacc
        simp [AnyError.containsMsg, portBindError]
      · exact hports q hq2

/-- Claim C4: for every address-space translation, descriptors are scanned
in registration order and the first descriptor with zero select mask whose
range `[start, start+len)` contains the address matches; the translated
pointer is the descriptor base pointer offset by exactly
`offset + (a - start)` with length `min (len - (a - start), maxLength)`;
an address contained in no descriptor (or only in descriptors with a
nonzero select mask) translates to none. -/
theorem C4_translate :
    (∀ (m : MemoryMap) (a max_len : Nat) (d : Descriptor),
        m.find_descriptor a = some d →
          (d.select = 0 ∧ d.start ≤ a ∧ a < d.start + d.len)
          ∧ (∃ pre post, m.descriptors = pre ++ d :: post
              ∧ ∀ e ∈ pre, e.contains_address a = false)
          ∧ d.get_raw_slice a max_len =
              some (d.ptr + (d.offset + (a - d.start)),
                min (d.len - (a - d.start)) max_len))
  ∧ (∀ (m : MemoryMap) (mem : Mem) (a max_len : Nat),
        (∀ d ∈ m.descriptors, d.contains_address a = false) →
        m.get_slice mem a max_len = none) := by
  constructor
  · intro m a max_len d h
    have hc := find_descriptor_contains m a d h
    obtain ⟨hsel, h1, h2⟩ := (contains_address_iff d a).mp hc
    refine ⟨⟨hsel, h1, h2⟩, ?_, get_raw_slice_of_contains d a max_len h1 h2⟩
    exact find?_split _ m.descriptors d
      (by simpa [MemoryMap.find_descriptor] using h)
  · intro m mem a max_len h
    simp [MemoryMap.get_slice, find_descriptor_none m a h]

/-- Witness for C4: a concrete map whose first descriptor has a nonzero
select mask (and is skipped) and whose second descriptor matches; and a
map whose only descriptor has a nonzero select mask, where translation
fails. -/
theorem C4_translate_witness :
    ((⟨0, 0x40, 0x8, 0x10, 0, 0, 0x1e, "System Bus"⟩ : Descriptor).get_raw_slice
        0x12 100 =
      some (0x40 + (0x8 + (0x12 - 0x10)), min (0x1e - (0x12 - 0x10)) 100))
  ∧ ((⟨[⟨0, 0, 0, 0, 1, 0, 0x100, "System Bus"⟩]⟩ : MemoryMap).get_slice
        (fun _ => 0) 0x12 100 = none) := by
  constructor
  · exact (C4_translate.1
      ⟨[⟨0, 0, 0, 0, 1, 0, 0x100, "System Bus"⟩,
        ⟨0, 0x40, 0x8, 0x10, 0, 0, 0x1e, "System Bus"⟩]⟩
      0x12 100 ⟨0, 0x40, 0x8, 0x10, 0, 0, 0x1e, "System Bus"⟩ (by decide)).2.2
  · exact C4_translate.2 ⟨[⟨0, 0, 0, 0, 1, 0, 0x100, "System Bus"⟩]⟩
      (fun _ => 0) 0x12 100 (by decide)

/-- Claim C5: domain reads and writes are clamped, never errors. For the
System Bus: a read of length L at an address with k bytes remaining in the
matched descriptor returns exactly `min k L` bytes; a write copies and
reports `min k (length bytes)` bytes and touches nothing else; with no
matching descriptor reads are empty and writes write nothing. For the ROM
domain: a read returns the in-range slice, whose length is
`min L (romLen - a)` (possibly zero), wrapped in an ordinary ReadResponse. -/
theorem C5_truncated_reads_writes :
    (∀ (s : State) (mem : Mem) (a L : Nat) (d : Descriptor),
        s.memory_map.find_descriptor a = some d →
        (Core.get_memory ⟨s, mem⟩ a L).length = min (d.len - (a - d.start)) L)
  ∧ (∀ (s : State) (mem : Mem) (a : Nat) (bytes : List Nat) (d : Descriptor),
        s.memory_map.find_descriptor a = some d →
        (Core.write_memory ⟨s, mem⟩ a bytes).2 =
            min (d.len - (a - d.start)) bytes.length
        ∧ (∀ i, i < min (d.len - (a - d.start)) bytes.length →
            (Core.write_memory ⟨s, mem⟩ a bytes).1.mem
                (d.ptr + (d.offset + (a - d.start)) + i) = bytes.getD i 0)
        ∧ (∀ q, q < d.ptr + (d.offset + (a - d.start)) ∨
              d.ptr + (d.offset + (a - d.start)) +
                min (d.len - (a - d.start)) bytes.length ≤ q →
            (Core.write_memory ⟨s, mem⟩ a bytes).1.mem q = mem q))
  ∧ (∀ (s : State) (mem : Mem) (a L : Nat) (bytes : List Nat),
        s.memory_map.find_descriptor a = none →
        Core.get_memory ⟨s, mem⟩ a L = []
        ∧ (Core.write_memory ⟨s, mem⟩ a bytes).2 = 0
        ∧ (Core.write_memory ⟨s, mem⟩ a bytes).1.mem = mem)
  ∧ (∀ (c : Core) (a L : Nat),
        (handle_request (Request.read a L ("ROM")) c).2 =
          Response.readResponse
            ((c.state.rom.take (min (a + L) c.state.rom.length)).drop
              (min a c.state.rom.length))
        ∧ ((c.state.rom.take (min (a + L) c.state.rom.length)).drop
              (min a c.state.rom.length)).length = min L (c.state.rom.length - a)) := by
  refine ⟨?_, ?_, ?_, ?_⟩
  · intro s mem a L d h
    exact get_memory_length s mem a L d h
  · intro s mem a bytes d h
    exact write_memory_spec s mem a bytes d h
  · intro s mem a L bytes h
    exact memory_no_descriptor s mem a L bytes h
  · intro c a L
    constructor
    · rfl
    · simp
      omega

/-- Witness for C5: one descriptor of length 0x20 starting at address 0;
at address 0x1e only 2 bytes remain, so a 4-byte read returns 2 bytes and a
4-byte write reports 2 bytes; at address 0x100 nothing matches; a ROM of
3 bytes read at address 2 with size 5 yields 1 byte. -/
theorem C5_truncated_reads_writes_witness :
    ((Core.get_memory
        ⟨⟨false, PixelFormat.ARGB1555, ⟨[⟨0, 0, 0, 0, 0, 0, 0x20, "System Bus"⟩]⟩,
          [], ""⟩, fun _ => 0⟩ 0x1e 4).length = min (0x20 - (0x1e - 0)) 4)
  ∧ ((Core.write_memory
        ⟨⟨false, PixelFormat.ARGB1555, ⟨[⟨0, 0, 0, 0, 0, 0, 0x20, "System Bus"⟩]⟩,
          [], ""⟩, fun _ => 0⟩ 0x1e [1, 2, 3, 4]).2 =
      min (0x20 - (0x1e - 0)) ([1, 2, 3, 4] : List Nat).length)
  ∧ (Core.get_memory
        ⟨⟨false, PixelFormat.ARGB1555, ⟨[⟨0, 0, 0, 0, 0, 0, 0x20, "System Bus"⟩]⟩,
          [], ""⟩, fun _ => 0⟩ 0x100 4 = [])
  ∧ (((⟨⟨false, PixelFormat.ARGB1555, ⟨[]⟩, [1, 2, 3], ""⟩, fun _ => 0⟩ :
        Core).state.rom.take
          (min (2 + 5) 3)).drop (min 2 3)).length = min 5 (3 - 2) := by
  refine ⟨?_, ?_, ?_, ?_⟩
  · exact C5_truncated_reads_writes.1 _ (fun _ => 0) 0x1e 4
      ⟨0, 0, 0, 0, 0, 0, 0x20, "System Bus"⟩ (by decide)
  · exact (C5_truncated_reads_writes.2.1 _ (fun _ => 0) 0x1e [1, 2, 3, 4]
      ⟨0, 0, 0, 0, 0, 0, 0x20, "System Bus"⟩ (by decide)).1
  · exact (C5_truncated_reads_writes.2.2.1 _ (fun _ => 0) 0x100 4 [] (by decide)).1
  · have h := (C5_truncated_reads_writes.2.2.2
      ⟨⟨false, PixelFormat.ARGB1555, ⟨[]⟩, [1, 2, 3], ""⟩, fun _ => 0⟩ 2 5).2
    simpa using h

/-- Claim C6 (implicit invariant): the thread-local memory map is empty in
every reachable state — `State::new` starts it empty, the environment
callback handles only SET_PIXEL_FORMAT and GET_CAN_DUPE (returning false
and leaving the state unchanged on every other command, and never touching
the memory map) — so `Core::get_memory` always returns an empty vector and
`Core::write_memory` always returns 0. -/
theorem C6_memory_map_always_empty :
    (State.new.memory_map = MemoryMap.empty)
  ∧ (∀ (supports : PixelFormat → Bool) (cmd : EnvCommand) (s : State),
        (environment supports cmd s).2.memory_map = s.memory_map
        ∧ ((cmd = EnvCommand.otherKnown ∨ cmd = EnvCommand.unknownRepr) →
            environment supports cmd s = (false, s)))
  ∧ (∀ s : State, ReachableState s → s.memory_map = MemoryMap.empty)
  ∧ (∀ (s : State) (mem : Mem), ReachableState s →
        (∀ a L, Core.get_memory ⟨s, mem⟩ a L = [])
        ∧ (∀ a bytes, (Core.write_memory ⟨s, mem⟩ a bytes).2 = 0)) := by
  refine ⟨rfl, ?_, reachable_memory_map_empty, ?_⟩
  · intro supports cmd s
    refine ⟨environment_memory_map supports cmd s, ?_⟩
    rintro (rfl | rfl) <;> rfl
  · intro s mem h
    have hempty := reachable_memory_map_empty s h
    exact ⟨(memory_ops_empty_map s mem hempty).1,
      fun a bytes => ((memory_ops_empty_map s mem hempty).2 a bytes).1⟩

/-- Witness for C6: the initial state is reachable, and there reads are
empty and writes report zero bytes. -/
theorem C6_memory_map_always_empty_witness :
    Core.get_memory ⟨State.new, fun _ => 0⟩ 3 5 = []
  ∧ (Core.write_memory ⟨State.new, fun _ => 0⟩ 3 [1, 2]).2 = 0 := by
  refine ⟨?_, ?_⟩
  · exact (C6_memory_map_always_empty.2.2.2 State.new (fun _ => 0)
      ReachableState.init).1 3 5
  · exact (C6_memory_map_always_empty.2.2.2 State.new (fun _ => 0)
      ReachableState.init).2 3 [1, 2]

/-- Counterexample for C1: in the spec scenario (guard on 0x10 expecting
0x05 while memory holds 0x00, then a write of 0x06 to 0x10) the second
response is the ordinary WriteResponse, not the failed-guard response, and
the write does execute: memory at 0x10 becomes 0x06 instead of staying
0x00. -/
theorem C1_guard_write_counterexample :
    ((processBatch smallBusCore ⟨false, none⟩ guardWriteBatch).2.2 =
        [Response.guardResponse false 0x10, Response.writeResponse])
  ∧ ([Response.guardResponse false 0x10, Response.writeResponse] ≠
        [Response.guardResponse false 0x10, Response.guardResponse false 0x10])
  ∧ ((processBatch smallBusCore ⟨false, none⟩ guardWriteBatch).1.mem 0x10 = 0x06)
  ∧ ((0x06 : Nat) ≠ 0x00) := by
  refine ⟨by decide, by decide, by decide, by decide⟩

/-- C1 as amended: processing the scenario batch yields
`[GUARD_RESPONSE{value:false, address:0x10}, WRITE_RESPONSE]` — the held
failed-guard response is prepended before the write response, which is
still produced — and the write is not short-circuited: live memory at 0x10
is changed to 0x06 (memory outside the written byte is untouched). -/
theorem C1_guard_write_amended :
    ∃ c2,
      handle_requests jdFail smallBusCore guardWriteBatch [] =
        .ok (c2, [],
          some [Response.guardResponse false 0x10, Response.writeResponse], [])
      ∧ c2.mem 0x10 = 0x06
      ∧ c2.mem 0x0f = 0x00 := by
  refine ⟨(processBatch smallBusCore ⟨false, none⟩ guardWriteBatch).1,
    ?_, by decide, by decide⟩
  have h := handleRequestsLoop_unlocked jdFail smallBusCore ⟨false, none⟩
    guardWriteBatch [] (by decide)
  rw [handle_requests, h]
  have h2 : (processBatch smallBusCore ⟨false, none⟩ guardWriteBatch).2.2 =
      [Response.guardResponse false 0x10, Response.writeResponse] := by decide
  rw [h2]

/-- Dispatching only ever appends to the response buffer. -/
theorem dispatchResponse_append (st : BatchSt) (acc : List Response)
    (r : Response) : ∃ t, (dispatchResponse st acc r).2 = acc ++ t := by
  cases r <;>
    first
      | exact ⟨_, rfl⟩
      | exact ⟨[], by simp [dispatchResponse]⟩

/-- Counterexample for C2: a guard whose comparison succeeds (expected data
is empty, and the read returns empty) still alters every subsequent
response — processing [Guard(0, [], "System Bus"), Ping] yields
`[GUARD_RESPONSE{value:true}, PONG]`, not `[PONG]`: the held guard response
is prepended even though the comparison succeeded. -/
theorem C2_successful_guard_counterexample :
    ((processBatch emptyCore ⟨false, none⟩
        [Request.guard 0 [] ("System Bus"), Request.ping]).2.2 =
      [Response.guardResponse true 0, Response.pong])
  ∧ ([Response.guardResponse true 0, Response.pong] ≠ [Response.pong]) := by
  refine ⟨by decide, by decide⟩

/-- C2 as amended: a Guard response is held rather than appended, but
unconditionally — whether its comparison succeeded or failed — replacing
any previously held guard response; whenever a guard response is held, it
is prepended before every subsequent response; and nothing ever clears the
held response within a `handle_requests` invocation (only a new Guard
replaces it). Each top-level request line starts a fresh invocation with no
held guard (`handle_requests` initializes `failed_guard` to None). -/
theorem C2_guard_holding_amended :
    (∀ (st : BatchSt) (acc : List Response) (v : Bool) (a : Nat),
        dispatchResponse st acc (Response.guardResponse v a) =
          (⟨st.is_locked, some (Response.guardResponse v a)⟩, acc))
  ∧ (∀ (core : Core) (st : BatchSt) (acc : List Response) (req : Request)
        (g : Response), st.failed_guard = some g →
        ∃ tail, (handleOneRequest core st acc req).2.2 = (acc ++ [g]) ++ tail)
  ∧ (∀ (st : BatchSt) (acc : List Response) (r : Response),
        (∀ v a, r ≠ Response.guardResponse v a) →
        (dispatchResponse st acc r).1.failed_guard = st.failed_guard)
  ∧ (∀ (jsonDecode : String → Except String (List Request)) (core : Core)
        (requests : List Request) (lines : List String),
        handle_requests jsonDecode core requests lines =
          handleRequestsLoop jsonDecode core ⟨false, none⟩ requests lines) := by
  refine ⟨?_, ?_, ?_, ?_⟩
  · intro st acc v a
    rfl
  · intro core st acc req g hg
    obtain ⟨t, ht⟩ :=
      dispatchResponse_append st (acc ++ [g]) (handle_request req core).2
    refine ⟨t, ?_⟩
    simp only [handleOneRequest, hg]
    exact ht
  · intro st acc r hr
    cases r <;> simp [dispatchResponse]
    case guardResponse v a => exact absurd rfl (hr v a)
  · intro jsonDecode core requests lines
    rfl

/-- Witness for C2: a held failed-guard response is prepended before the
Pong of a subsequent Ping, and dispatching a Pong does not clear the held
response. -/
theorem C2_guard_holding_amended_witness :
    (∃ tail,
        (handleOneRequest emptyCore ⟨false, some (Response.guardResponse false 7)⟩
          [] Request.ping).2.2 = ([] ++ [Response.guardResponse false 7]) ++ tail)
  ∧ ((dispatchResponse ⟨false, some (Response.guardResponse false 7)⟩ []
        Response.pong).1.failed_guard = some (Response.guardResponse false 7)) := by
  constructor
  · exact C2_guard_holding_amended.2.1 emptyCore
      ⟨false, some (Response.guardResponse false 7)⟩ [] Request.ping
      (Response.guardResponse false 7) rfl
  · exact C2_guard_holding_amended.2.2.1
      ⟨false, some (Response.guardResponse false 7)⟩ [] Response.pong
      (fun v a h => Response.noConfusion h)

/-- C3 as amended: on the success path `Core::load` runs unload and deinit
and resets both thread-locals; when game loading fails, deinit still runs
before the error is returned, but the thread-locals are NOT reset (the
callback registry stays registered); when the body panics, no unload, no
deinit and no reset happen at all. -/
theorem C3_load_cleanup_corrected :
    (∀ {R : Type} (api : ApiBehavior)
        (body : ThreadLocals → ThreadLocals × Option R) (tl tl2 : ThreadLocals)
        (r : R),
        tl.state.is_core_loaded = false → api.loadOk = true →
        api.apiVersion = EXPECTED_LIB_RETRO_VERSION → api.loadGameOk = true →
        body { tl with callbacks := CallbackSlot.registered } = (tl2, some r) →
        Core.load api body tl =
          (.ok r, ⟨CallbackSlot.stub, State.new⟩,
            loadPrelude ++ [FfiCall.retroLoadGame, FfiCall.retroUnloadGame,
              FfiCall.retroDeinit]))
  ∧ (∀ {R : Type} (api : ApiBehavior)
        (body : ThreadLocals → ThreadLocals × Option R) (tl : ThreadLocals),
        tl.state.is_core_loaded = false → api.loadOk = true →
        api.apiVersion = EXPECTED_LIB_RETRO_VERSION → api.loadGameOk = false →
        Core.load api body tl =
          (.error ("failed to load game"),
            { tl with callbacks := CallbackSlot.registered },
            loadPrelude ++ [FfiCall.retroLoadGame, FfiCall.retroDeinit])
          ∧ ({ tl with callbacks := CallbackSlot.registered } :
              ThreadLocals).callbacks ≠ CallbackSlot.stub)
  ∧ (∀ {R : Type} (api : ApiBehavior)
        (body : ThreadLocals → ThreadLocals × Option R) (tl tl2 : ThreadLocals),
        tl.state.is_core_loaded = false → api.loadOk = true →
        api.apiVersion = EXPECTED_LIB_RETRO_VERSION → api.loadGameOk = true →
        body { tl with callbacks := CallbackSlot.registered } = (tl2, none) →
        Core.load api body tl =
          (.panicked, tl2, loadPrelude ++ [FfiCall.retroLoadGame])
          ∧ FfiCall.retroDeinit ∉ loadPrelude ++ [FfiCall.retroLoadGame]
          ∧ FfiCall.retroUnloadGame ∉ loadPrelude ++ [FfiCall.retroLoadGame]) := by
  refine ⟨?_, ?_, ?_⟩
  · intro R api body tl tl2 r h1 h2 h3 h4 hbody
    simp [Core.load, h1, h2, h3, h4, hbody]
  · intro R api body tl h1 h2 h3 h4
    refine ⟨?_, by simp⟩
    simp [Core.load, h1, h2, h3, h4]
  · intro R api body tl tl2 h1 h2 h3 h4 hbody
    refine ⟨?_, by decide, by decide⟩
    simp [Core.load, h1, h2, h3, h4, hbody]

/-- Counterexample for C3: when game loading fails, deinit runs but the
callback registry is left registered instead of being reset to the stub
default; and when the body panics, neither unload nor deinit is invoked. -/
theorem C3_load_cleanup_counterexample :
    ((Core.load (⟨true, 1, false⟩ : ApiBehavior) (fun tl => (tl, some ()))
        ThreadLocals.init).2.1.callbacks = CallbackSlot.registered)
  ∧ (CallbackSlot.registered ≠ CallbackSlot.stub)
  ∧ (ThreadLocals.init.callbacks = CallbackSlot.stub)
  ∧ (FfiCall.retroDeinit ∈ (Core.load (⟨true, 1, false⟩ : ApiBehavior)
        (fun tl => (tl, some ())) ThreadLocals.init).2.2)
  ∧ (FfiCall.retroDeinit ∉ (Core.load (⟨true, 1, true⟩ : ApiBehavior)
        (fun tl => (tl, (none : Option Unit))) ThreadLocals.init).2.2)
  ∧ (FfiCall.retroUnloadGame ∉ (Core.load (⟨true, 1, true⟩ : ApiBehavior)
        (fun tl => (tl, (none : Option Unit))) ThreadLocals.init).2.2) := by
  refine ⟨rfl, by decide, rfl, by decide, by decide, by decide⟩

/-- Witness for C3: the success path and the game-load-failure path at
concrete inputs. -/
theorem C3_load_cleanup_corrected_witness :
    (Core.load (⟨true, 1, true⟩ : ApiBehavior) (fun tl => (tl, some 42))
        ThreadLocals.init =
      (.ok 42, ⟨CallbackSlot.stub, State.new⟩,
        loadPrelude ++ [FfiCall.retroLoadGame, FfiCall.retroUnloadGame,
          FfiCall.retroDeinit]))
  ∧ (Core.load (⟨true, 1, false⟩ : ApiBehavior) (fun tl => (tl, some 42))
        ThreadLocals.init =
      (.error ("failed to load game"),
        { ThreadLocals.init with callbacks := CallbackSlot.registered },
        loadPrelude ++ [FfiCall.retroLoadGame, FfiCall.retroDeinit])) := by
  constructor
  · exact C3_load_cleanup_corrected.1 ⟨true, 1, true⟩ _ ThreadLocals.init _ 42
      rfl rfl rfl rfl rfl
  · exact (C3_load_cleanup_corrected.2.1 ⟨true, 1, false⟩
      (fun tl => (tl, some 42)) ThreadLocals.init rfl rfl rfl rfl).1

/-- Claim C7 (code bug in the sources): `is_core_loaded` is never set to
true anywhere, so the "only one core per thread allowed" guard at the top
of `Core::load` can never fire. A re-entrant load from inside the body of
an active load succeeds (returning ok) instead of failing, the flag still
reads false while a core is loaded, even though the guard rejects exactly
when the flag is true. -/
theorem C7_reentrant_load_not_rejected :
    ((Core.load (⟨true, 1, true⟩ : ApiBehavior)
        (fun tl =>
          ((Core.load (⟨true, 1, true⟩ : ApiBehavior)
              (fun tl2 => (tl2, some ())) tl).2.1,
            some (Core.load (⟨true, 1, true⟩ : ApiBehavior)
              (fun tl2 => (tl2, some ())) tl).1))
        ThreadLocals.init).1 = LoadOutcome.ok (LoadOutcome.ok ()))
  ∧ (({ ThreadLocals.init with callbacks := CallbackSlot.registered } :
        ThreadLocals).state.is_core_loaded = false)
  ∧ (Core.load (⟨true, 1, true⟩ : ApiBehavior) (fun tl2 => (tl2, some ()))
        (⟨CallbackSlot.stub, { State.new with is_core_loaded := true }⟩ :
          ThreadLocals) =
      (.error ("only one core per thread allowed"),
        ⟨CallbackSlot.stub, { State.new with is_core_loaded := true }⟩, [])) := by
  refine ⟨rfl, rfl, rfl⟩

/-- Claim C8: a Locked response toggles the lock flag on and Unlocked
toggles it off; a batch that leaves the connection unlocked completes
per-line (responses returned, input untouched); a batch that leaves it
locked first sends the responses gathered so far and then consumes one more
request line before continuing. -/
theorem C8_lock_unlock_mode :
    (∀ (st : BatchSt) (acc : List Response),
        (dispatchResponse st acc Response.locked).1.is_locked = true
        ∧ (dispatchResponse st acc Response.unlocked).1.is_locked = false)
  ∧ (∀ (jsonDecode : String → Except String (List Request)) (core : Core)
        (st : BatchSt) (reqs : List Request) (lines : List String),
        (processBatch core st reqs).2.1.is_locked = false →
        handleRequestsLoop jsonDecode core st reqs lines =
          .ok ((processBatch core st reqs).1, [],
            some (processBatch core st reqs).2.2, lines))
  ∧ (∀ (jsonDecode : String → Except String (List Request)) (core : Core)
        (st : BatchSt) (reqs reqs2 : List Request) (line : String)
        (rest : List String) (w : WireMsg),
        (processBatch core st reqs).2.1.is_locked = true →
        send_responses (processBatch core st reqs).2.2 = .ok w →
        parse_requests jsonDecode line = .ok reqs2 →
        handleRequestsLoop jsonDecode core st reqs (line :: rest) =
          (match handleRequestsLoop jsonDecode (processBatch core st reqs).1
              (processBatch core st reqs).2.1 reqs2 rest with
            | .error e => .error e
            | .ok r => .ok (r.1, w :: r.2.1, r.2.2.1, r.2.2.2))) := by
  refine ⟨fun st acc => ⟨rfl, rfl⟩, ?_, ?_⟩
  · intro jsonDecode core st reqs lines h
    exact handleRequestsLoop_unlocked jsonDecode core st reqs lines h
  · intro jsonDecode core st reqs reqs2 line rest w h hsend hparse
    simp only [handleRequestsLoop, h, hsend, hparse]
    simp

/-- Witness for C8: an unlocked Ping batch completes per-line with one
pending line untouched; with the lock flag set and an empty batch, the
handler sends the (empty) response array and consumes the next line. -/
theorem C8_lock_unlock_mode_witness :
    (handleRequestsLoop (fun _ => Except.ok []) emptyCore ⟨false, none⟩
        [Request.ping] ["y"] =
      .ok ((processBatch emptyCore ⟨false, none⟩ [Request.ping]).1, [],
        some (processBatch emptyCore ⟨false, none⟩ [Request.ping]).2.2, ["y"]))
  ∧ (handleRequestsLoop (fun _ => Except.ok []) emptyCore ⟨true, none⟩ []
        ["x"] =
      (match handleRequestsLoop (fun _ => Except.ok [])
          (processBatch emptyCore ⟨true, none⟩ []).1
          (processBatch emptyCore ⟨true, none⟩ []).2.1 [] [] with
        | .error e => .error e
        | .ok r =>
          .ok (r.1, WireMsg.jsonLine ("[" ++ "" ++ "]" ++ "\n") :: r.2.1,
            r.2.2.1, r.2.2.2))) := by
  constructor
  · exact C8_lock_unlock_mode.2.1 (fun _ => Except.ok []) emptyCore
      ⟨false, none⟩ [Request.ping] ["y"] (by decide)
  · exact C8_lock_unlock_mode.2.2 (fun _ => Except.ok []) emptyCore
      ⟨true, none⟩ [] [] "x" [] (WireMsg.jsonLine ("[" ++ "" ++ "]" ++ "\n"))
      (by decide) rfl rfl

/-- Claim C9: a received line whose trimmed text equals VERSION
case-insensitively is answered with the single-line plaintext version reply
(the bare integer 1 and a newline, never a JSON array), independently of
what the rest of the connection carries; every other line goes to the JSON
decoder — on success the line is answered with a JSON array of responses,
on decode failure the connection errors out. -/
theorem C9_version_line_plaintext :
    (∀ (jsonDecode : String → Except String (List Request)) (core : Core)
        (line : String) (rest : List String),
        eqIgnoreAsciiCase (rustTrim line) ("VERSION") = true →
        tryHandleClient jsonDecode core (line :: rest) =
          (WireMsg.plaintext (toString VERSION ++ "\n") ::
              (tryHandleClient jsonDecode core rest).1,
            (tryHandleClient jsonDecode core rest).2))
  ∧ (toString VERSION ++ "\n" = "1\n")
  ∧ (∀ (jsonDecode : String → Except String (List Request)) (core : Core)
        (line : String) (rest : List String) (reqs : List Request),
        eqIgnoreAsciiCase (rustTrim line) ("VERSION") = false →
        jsonDecode line = .ok reqs →
        Request.version ∉ reqs →
        ∃ s, (tryHandleClient jsonDecode core (line :: rest)).1.head? =
          some (WireMsg.jsonLine ("[" ++ s ++ "]" ++ "\n")))
  ∧ (∀ (jsonDecode : String → Except String (List Request)) (core : Core)
        (line : String) (rest : List String) (e : String),
        eqIgnoreAsciiCase (rustTrim line) ("VERSION") = false →
        jsonDecode line = .error e →
        tryHandleClient jsonDecode core (line :: rest) =
          ([], ConnEnd.errored e)) := by
  refine ⟨?_, rfl, ?_, ?_⟩
  · intro jd core line rest hv
    have hp : parse_requests jd line = .ok [Request.version] := by
      simp [parse_requests, hv]
    have hpb : processBatch core ⟨false, none⟩ [Request.version] =
        (core, ⟨false, none⟩, [Response.version]) := rfl
    have hloop : handleRequestsLoop jd core ⟨false, none⟩ [Request.version]
        rest = .ok (core, [], some [Response.version], rest) := by
      have h2 := handleRequestsLoop_unlocked jd core ⟨false, none⟩
        [Request.version] rest (by rw [hpb])
      rw [hpb] at h2
      simpa using h2
    have hsend : send_responses [Response.version] =
        .ok (WireMsg.plaintext (toString VERSION ++ "\n")) := rfl
    simp only [tryHandleClient, hp]
    split
    · rename_i e heq
      rw [hloop] at heq
      cases heq
    · rename_i r heq
      rw [hloop] at heq
      injection heq with h2
      subst h2
      simp [hsend]
  · intro jd core line rest reqs hv hjd hnv
    have hp : parse_requests jd line = .ok reqs := by
      simp [parse_requests, hv, hjd]
    have hlock : (processBatch core ⟨false, none⟩ reqs).2.1.is_locked = false :=
      processBatch_is_locked_false core ⟨false, none⟩ reqs rfl
    have hloop := handleRequestsLoop_unlocked jd core ⟨false, none⟩ reqs rest
      hlock
    have hnov : ∀ x ∈ (processBatch core ⟨false, none⟩ reqs).2.2,
        x ≠ Response.version := by
      have h3 := processBatch_no_version reqs core ⟨false, none⟩ [] hnv
        (by simp) (by simp)
      exact h3
    obtain ⟨s2, hsend⟩ := send_responses_json _ hnov
    refine ⟨s2, ?_⟩
    simp only [tryHandleClient, hp]
    split
    · rename_i e heq
      rw [hloop] at heq
      cases heq
    · rename_i r heq
      rw [hloop] at heq
      injection heq with h2
      subst h2
      simp [hsend]
  · intro jd core line rest e hv hjd
    have hp : parse_requests jd line = .error e := by
      simp [parse_requests, hv, hjd]
    simp only [tryHandleClient, hp]

/-- Witness for C9: the line " Version " (whitespace, mixed case) on a
connection with no further lines produces the plaintext version reply; the
line "x" decoded as a Ping batch is answered with a JSON array. -/
theorem C9_version_line_plaintext_witness :
    (tryHandleClient jdFail emptyCore [" Version "] =
      (WireMsg.plaintext (toString VERSION ++ "\n") ::
          (tryHandleClient jdFail emptyCore []).1,
        (tryHandleClient jdFail emptyCore []).2))
  ∧ (∃ s, (tryHandleClient (fun _ => Except.ok [Request.ping]) emptyCore
        ["x"]).1.head? = some (WireMsg.jsonLine ("[" ++ s ++ "]" ++ "\n"))) := by
  constructor
  · exact C9_version_line_plaintext.1 jdFail emptyCore (" Version ") []
      (by decide)
  · exact C9_version_line_plaintext.2.2.1 (fun _ => Except.ok [Request.ping])
      emptyCore ("x") [] [Request.ping] (by decide) rfl (by decide)

/-- Claim C10: the listener tries the 5 contiguous candidate ports starting
at 43055 in order and binds the first free one (binding the 5th when the
first 4 are occupied), and when all 5 fail the returned error aggregates
the per-port failure of every one of the 5 attempts under the
"no port found to listen on" context. -/
theorem C10_bind_socket_ports :
    (∀ (bindResult : Nat → Option String) (i : Nat),
        i < 5 →
        (∀ j, j < i → bindResult (FIRST_PORT + j) ≠ none) →
        bindResult (FIRST_PORT + i) = none →
        bind_socket bindResult = .ok (FIRST_PORT + i))
  ∧ (∀ (bindResult : Nat → Option String),
        (∀ j, j < 5 → bindResult (FIRST_PORT + j) ≠ none) →
        ∃ e, bind_socket bindResult = .error e
          ∧ e.containsMsg ("no port found to listen on") = true
          ∧ ∀ j, j < 5 →
              e.containsMsg ("failed to listen on port " ++
                toString (FIRST_PORT + j)) = true) := by
  constructor
  · intro br i hi hpre hfree
    have hrange : List.range' FIRST_PORT 5 =
        [FIRST_PORT, FIRST_PORT + 1, FIRST_PORT + 2, FIRST_PORT + 3,
          FIRST_PORT + 4] := rfl
    unfold bind_socket
    rw [hrange]
    interval_cases i
    · exact bindLoop_first_free br [] none (FIRST_PORT + 0)
        [FIRST_PORT + 1, FIRST_PORT + 2, FIRST_PORT + 3, FIRST_PORT + 4]
        (by simp) hfree
    · exact bindLoop_first_free br [FIRST_PORT + 0] none (FIRST_PORT + 1)
        [FIRST_PORT + 2, FIRST_PORT + 3, FIRST_PORT + 4]
        (by
          intro q hq
          simp only [List.mem_singleton] at hq
          subst hq
          exact hpre 0 (by omega)) hfree
    · exact bindLoop_first_free br [FIRST_PORT + 0, FIRST_PORT + 1] none
        (FIRST_PORT + 2) [FIRST_PORT + 3, FIRST_PORT + 4]
        (by
          intro q hq
          rcases List.mem_cons.mp hq with rfl | hq2
          · exact hpre 0 (by omega)
          · simp only [List.mem_singleton] at hq2
            subst hq2
            exact hpre 1 (by omega)) hfree
    · exact bindLoop_first_free br
        [FIRST_PORT + 0, FIRST_PORT + 1, FIRST_PORT + 2] none (FIRST_PORT + 3)
        [FIRST_PORT + 4]
        (by
          intro q hq
          rcases List.mem_cons.mp hq with rfl | hq2
          · exact hpre 0 (by omega)
          rcases List.mem_cons.mp hq2 with rfl | hq3
          · exact hpre 1 (by omega)
          simp only [List.mem_singleton] at hq3
          subst hq3
          exact hpre 2 (by omega)) hfree
    · exact bindLoop_first_free br
        [FIRST_PORT + 0, FIRST_PORT + 1, FIRST_PORT + 2, FIRST_PORT + 3] none
        (FIRST_PORT + 4) []
        (by
          intro q hq
          rcases List.mem_cons.mp hq with rfl | hq2
          · exact hpre 0 (by omega)
          rcases List.mem_cons.mp hq2 with rfl | hq3
          · exact hpre 1 (by omega)
          rcases List.mem_cons.mp hq3 with rfl | hq4
          · exact hpre 2 (by omega)
          simp only [List.mem_singleton] at hq4
          subst hq4
          exact hpre 3 (by omega)) hfree
  · intro br hall
    obtain ⟨io, hio⟩ := Option.ne_none_iff_exists'.mp
      (by simpa using hall 0 (by omega))
    have hrange : List.range' FIRST_PORT 5 =
        FIRST_PORT :: [FIRST_PORT + 1, FIRST_PORT + 2, FIRST_PORT + 3,
          FIRST_PORT + 4] := rfl
    have hrest : ∀ q ∈ [FIRST_PORT + 1, FIRST_PORT + 2, FIRST_PORT + 3,
        FIRST_PORT + 4], br q ≠ none := by
      intro q hq
      rcases List.mem_cons.mp hq with rfl | hq2
      · exact hall 1 (by omega)
      rcases List.mem_cons.mp hq2 with rfl | hq3
      · exact hall 2 (by omega)
      rcases List.mem_cons.mp hq3 with rfl | hq4
      · exact hall 3 (by omega)
      simp only [List.mem_singleton] at hq4
      subst hq4
      exact hall 4 (by omega)
    obtain ⟨e, he, hacc, hports⟩ := bindLoop_all_fail br
      [FIRST_PORT + 1, FIRST_PORT + 2, FIRST_PORT + 3, FIRST_PORT + 4]
      (portBindError FIRST_PORT io) hrest
    refine ⟨.ctx (.msg ("no port found to listen on")) e, ?_, ?_, ?_⟩
    · unfold bind_socket
      rw [hrange]
      simp only [bindLoop, hio]
      exact he
    · simp [AnyError.containsMsg]
    · intro j hj
      interval_cases j
      · have h0 := hacc ("failed to listen on port " ++ toString FIRST_PORT)
          (by simp [portBindError, AnyError.containsMsg])
        simp [AnyError.containsMsg, h0]
      · have := hports (FIRST_PORT + 1) (by simp)
        simp [AnyError.containsMsg, this]
      · have := hports (FIRST_PORT + 2) (by simp)
        simp [AnyError.containsMsg, this]
      · have := hports (FIRST_PORT + 3) (by simp)
        simp [AnyError.containsMsg, this]
      · have := hports (FIRST_PORT + 4) (by simp)
        simp [AnyError.containsMsg, this]

/-- Witness for C10: with the first four ports busy, port 43059 is bound;
with all five busy, the error names all five ports and the aggregate
context. -/
theorem C10_bind_socket_ports_witness :
    (bind_socket (fun p => if p < 43059 then some ("address in use") else none)
      = .ok (FIRST_PORT + 4))
  ∧ (∃ e, bind_socket (fun _ => some ("address in use")) = .error e
      ∧ e.containsMsg ("no port found to listen on") = true
      ∧ ∀ j, j < 5 →
          e.containsMsg ("failed to listen on port " ++
            toString (FIRST_PORT + j)) = true) := by
  constructor
  · exact C10_bind_socket_ports.1
      (fun p => if p < 43059 then some ("address in use") else none) 4
      (by omega) (by decide) (by decide)
  · exact C10_bind_socket_ports.2 (fun _ => some ("address in use"))
      (by intro j hj; simp)
